import Mathlib

/-!
Verification development for the coastalradiantvista token-burner app.

The file shallowly embeds the token-burn call builders
(`src/lib/batched-transactions.ts` and its batched variant), the token
aggregation API route (`src/app/api/tokens/[address]/route.ts`), the
client token-burner component (`src/components/token-burner.tsx` and the
batched `TokenBurner` variant), and proves the specified properties about
them.

Modelling conventions:
* EVM addresses and provider balance strings are `String`s, as in the
  TypeScript source.
* JavaScript `bigint` / numeric balances are `Nat` (balances are
  non-negative).
* A JS value that may be `undefined` is an `Option`.
* `viem`'s `encodeFunctionData` is modelled at the byte level for
  static-argument calls: 4 selector bytes followed by one 32-byte
  big-endian word per argument, which is exactly the ABI encoding for
  `transfer`/`approve`.
-/

namespace CoastalVista

/-! ### Hex / decimal string parsing (JS `parseInt(s, 16)`, `BigInt(s)`) -/

/-- Numeric value of one hex digit; `none` for a non-hex character. -/
def hexDigitVal (c : Char) : Option Nat :=
  if '0' ≤ c ∧ c ≤ '9' then some (c.toNat - '0'.toNat)
  else if 'a' ≤ c ∧ c ≤ 'f' then some (c.toNat - 'a'.toNat + 10)
  else if 'A' ≤ c ∧ c ≤ 'F' then some (c.toNat - 'A'.toNat + 10)
  else none

/-- Fold a list of characters as a base-`b` numeral, stopping at the first
invalid digit (the longest-valid-prefix behaviour of JS `parseInt`). -/
def parseDigits (digitVal : Char → Option Nat) (b : Nat) : List Char → Nat → Nat
  | [], acc => acc
  | c :: cs, acc =>
    match digitVal c with
    | some v => parseDigits digitVal b cs (acc * b + v)
    | none => acc

/-- Model of JS `parseInt(s, 16)` on the strings this app feeds it
(`0x`-prefixed hex balances).  An input with no valid digit yields `0`
(JS yields `NaN`, which compares with `> 0` the same way `0` does). -/
def parseHex (s : String) : Nat :=
  let cs := s.data
  let cs := if cs.take 2 = ['0', 'x'] ∨ cs.take 2 = ['0', 'X'] then cs.drop 2 else cs
  parseDigits hexDigitVal 16 cs 0

/-- Numeric value of one decimal digit. -/
def decDigitVal (c : Char) : Option Nat :=
  if '0' ≤ c ∧ c ≤ '9' then some (c.toNat - '0'.toNat) else none

/-- Model of JS `BigInt(s)` for the balance strings of this app:
`0x`-prefixed strings parse as hex, otherwise as a decimal numeral. -/
def jsBigInt (s : String) : Nat :=
  if s.data.take 2 = ['0', 'x'] ∨ s.data.take 2 = ['0', 'X'] then parseHex s
  else parseDigits decDigitVal 10 s.data 0

/-- Does the string contain a nonzero decimal digit? -/
def hasNonzeroDigit (s : String) : Bool :=
  s.data.any fun c => '1' ≤ c ∧ c ≤ '9'

/-- Is the string a plain non-negative decimal numeral (digits with at most
one decimal point, at least one digit)? -/
def isPlainDecimal (s : String) : Bool :=
  s.data.all (fun c => ('0' ≤ c ∧ c ≤ '9') ∨ c = '.') &&
    (s.data.filter (· = '.')).length ≤ 1 &&
    s.data.any (fun c => '0' ≤ c ∧ c ≤ '9')

/-- Model of the JS test `Number(s) > 0` for the plain decimal numerals the
Zapper provider reports: a valid numeral is positive iff it contains a
nonzero digit; anything else (empty, signed, malformed) is not `> 0`. -/
def jsNumberPos (s : String) : Bool :=
  isPlainDecimal s && hasNonzeroDigit s

/-- Model of JS `toLowerCase()` on the ASCII strings this app lowers
(addresses and token symbols): each ASCII capital is shifted to its
lowercase form.  (`String.toLower` itself is defined by well-founded
recursion over byte positions and does not evaluate definitionally.) -/
def jsToLower (s : String) : String :=
  ⟨s.data.map fun c =>
    if 'A' ≤ c ∧ c ≤ 'Z' then Char.ofNat (c.toNat + 32) else c⟩

/-! ### ABI call encoding (model of `viem`'s `encodeFunctionData`) -/

/-- An ABI argument of the static kinds this app passes. -/
inductive Arg where
  | addr (a : String)
  | uint (n : Nat)
  deriving DecidableEq, Repr

/-- A 32-byte big-endian word, as a list of byte values. -/
def word32 (n : Nat) : List Nat :=
  (List.range 32).map fun i => n / 256 ^ (31 - i) % 256

/-- ABI encoding of one static argument. -/
def encodeArg : Arg → List Nat
  | .addr a => word32 (parseHex a)
  | .uint n => word32 n

/-- An ABI is modelled by the 4-byte selectors it assigns to its function
names (the keccak-derived selectors are fixed constants of the standard). -/
structure Abi where
  selector : String → List Nat

/-- Model of `viem`'s `erc20Abi`: the standard ERC20 function selectors. -/
def erc20Abi : Abi where
  selector fn :=
    if fn = "transfer" then [0xa9, 0x05, 0x9c, 0xbb]
    else if fn = "approve" then [0x09, 0x5e, 0xa7, 0xb3]
    else if fn = "transferFrom" then [0x23, 0xb8, 0x72, 0xdd]
    else []

/-- Model of `viem`'s `encodeFunctionData` for static-argument calls:
selector bytes followed by the head-encoded arguments. -/
def encodeFunctionData (abi : Abi) (functionName : String) (args : List Arg) : List Nat :=
  abi.selector functionName ++ (args.map encodeArg).flatten

/-! ### `batched-transactions` call builders -/

/-- `TransactionStep` of `batched-transactions.ts`. -/
structure TransactionStep where
  name : String
  contractAddress : String
  abi : Abi
  functionName : String
  args : List Arg
  value : Option Nat := none

/-- `BatchCall` of the batched `useSendCalls` variant: a missing `value`
key is `none`.  The source field `to` is a reserved token here, so it is
named `toAddr`. -/
structure BatchCall where
  toAddr : String
  data : List Nat
  value : Option Nat := none
  deriving DecidableEq, Repr

/-- One element of the `tokenTransfers` argument of the burn builders. -/
structure TokenTransfer where
  tokenAddress : String
  amount : Nat
  tokenSymbol : Option String := none

/-- The default `burnAddress` argument of the burn builders. -/
def defaultBurnAddress : String := "0x000000000000000000000000000000000000dEaD"

/-- JS `Array.prototype.map` with the element index, as used by
`createTokenBurnSteps` (`(transfer, index) => ...`). -/
def mapWithIndex (f : Nat → α → β) : Nat → List α → List β
  | _, [] => []
  | i, a :: as => f i a :: mapWithIndex f (i + 1) as

/-- The step name `` `Burn ${transfer.tokenSymbol || 'token'} ${index + 1}` ``
(an absent or empty symbol is falsy and replaced by `"token"`). -/
def burnStepName (tokenSymbol : Option String) (index : Nat) : String :=
  let sym := match tokenSymbol with
    | some s => if s = "" then "token" else s
    | none => "token"
  "Burn " ++ sym ++ " " ++ toString (index + 1)

/-- `createTokenBurnSteps` of `batched-transactions.ts` (identical in the
batched variant). -/
def createTokenBurnSteps (tokenTransfers : List TokenTransfer)
    (burnAddress : String := defaultBurnAddress) : List TransactionStep :=
  mapWithIndex (fun index transfer =>
    { name := burnStepName transfer.tokenSymbol index
      contractAddress := transfer.tokenAddress
      abi := erc20Abi
      functionName := "transfer"
      args := [.addr burnAddress, .uint transfer.amount] }) 0 tokenTransfers

/-- `transactionStepsToBatchCalls` of the batched variant. -/
def transactionStepsToBatchCalls (steps : List TransactionStep) : List BatchCall :=
  steps.map fun step =>
    { toAddr := step.contractAddress
      data := encodeFunctionData step.abi step.functionName step.args
      value := step.value }

/-- `createTokenBurnBatchCalls` of the batched variant. -/
def createTokenBurnBatchCalls (tokenTransfers : List TokenTransfer)
    (burnAddress : String := defaultBurnAddress) : List BatchCall :=
  tokenTransfers.map fun transfer =>
    { toAddr := transfer.tokenAddress
      data := encodeFunctionData erc20Abi "transfer"
        [.addr burnAddress, .uint transfer.amount] }

/-! ### The retry-wrapped fetch helper (`fetchWithRetry`)

Both copies of `fetchWithRetry` (the API route's and the client's) run the
same loop; the client copy additionally invokes a progress callback before
each wait, which carries no data back into the loop.  An attempt either
yields a response (with its `ok` flag and status) or throws a network
error. -/

/-- The outcome of one `fetch` attempt. -/
inductive AttemptResult where
  | response (ok : Bool) (status : Nat)
  | networkError (msg : String)

/-- The response object, as far as the helper inspects it. -/
structure FetchResponse where
  ok : Bool
  status : Nat
  deriving DecidableEq, Repr

/-- Loop body of `fetchWithRetry`: `i` is the current attempt index and
`rem = retries - i` the remaining loop iterations (structural fuel).  The
result pairs the returned response or thrown error with the list of
backoff delays (ms) actually slept. -/
def fetchWithRetryLoop (attempt : Nat → AttemptResult) (retries : Nat) :
    Nat → Nat → Except String FetchResponse × List Nat
  | _, 0 => (.error "Max retries exceeded", [])
  | i, rem + 1 =>
    match attempt i with
    | .response true status => (.ok ⟨true, status⟩, [])
    | .response false status =>
      if i = retries - 1 then (.error ("HTTP " ++ toString status), [])
      else
        let rest := fetchWithRetryLoop attempt retries (i + 1) rem
        (rest.1, 2 ^ i * 1000 :: rest.2)
    | .networkError msg =>
      if i = retries - 1 then (.error msg, [])
      else
        let rest := fetchWithRetryLoop attempt retries (i + 1) rem
        (rest.1, 2 ^ i * 1000 :: rest.2)

/-- `fetchWithRetry(url, options, retries)`: the value returned or the
error thrown. -/
def fetchWithRetry (attempt : Nat → AttemptResult) (retries : Nat := 3) :
    Except String FetchResponse :=
  (fetchWithRetryLoop attempt retries 0 retries).1

/-- The backoff delays (in ms) `fetchWithRetry` sleeps, in order. -/
def fetchBackoffDelays (attempt : Nat → AttemptResult) (retries : Nat := 3) :
    List Nat :=
  (fetchWithRetryLoop attempt retries 0 retries).2

/-- Does this attempt outcome make the loop body throw (a network error or
a non-2xx response)? -/
def attemptThrows : AttemptResult → Bool
  | .response true _ => false
  | .response false _ => true
  | .networkError _ => true

/-- The error message the loop body throws for a failing attempt. -/
def attemptErrorMsg : AttemptResult → String
  | .response _ status => "HTTP " ++ toString status
  | .networkError msg => msg

/-! ### Locale comparison and token sorting -/

/-- Model of `String.prototype.localeCompare` under the default (root)
collation on the token symbols this app compares: primary strength is
case-insensitive, with the raw string as tie-break. -/
def localeCompare (a b : String) : Int :=
  if jsToLower a < jsToLower b then -1
  else if jsToLower b < jsToLower a then 1
  else if a < b then -1
  else if b < a then 1
  else 0

/-- The non-strict order induced by the `localeCompare` comparator. -/
def lcLe (a b : String) : Prop := localeCompare a b ≤ 0

/-! ### The server aggregation route (`/api/tokens/[address]`) -/

/-- The `Token` shape the route produces (`~/lib/types`), as constructed
by the two provider fetchers. -/
structure Token where
  contractAddress : String
  symbol : String
  name : String
  balance : String
  balanceFormatted : String
  deriving DecidableEq, Repr

/-- One node of the Zapper GraphQL `byToken.edges` response. -/
structure ZapperToken where
  symbol : String
  tokenAddress : String
  balance : String
  balanceRaw : String
  name : String
  deriving DecidableEq, Repr

/-- `tokenMetadata` of an Alchemy portfolio entry; `decimals := none`
models a JSON `null` decimals. -/
structure AlchemyTokenMetadata where
  decimals : Option Nat := none
  logo : Option String := none
  name : Option String := none
  symbol : Option String := none
  deriving DecidableEq, Repr

/-- One entry of the Alchemy portfolio API response; `tokenMetadata :=
none` models a missing metadata object. -/
structure AlchemyPortfolioToken where
  tokenAddress : String
  tokenBalance : String
  tokenMetadata : Option AlchemyTokenMetadata := none
  deriving DecidableEq, Repr

/-- A falsy (absent or empty) display string replaced by its sentinel,
modelling `x || sentinel`. -/
def orSentinel (sentinel : String) : Option String → String
  | some s => if s = "" then sentinel else s
  | none => sentinel

/-- The filter of `fetchAlchemyPortfolioTokens`: balance strictly
positive, truthy `tokenAddress`, and `tokenMetadata?.decimals !== null`
(note that an absent metadata object gives `undefined`, which passes the
strict `!== null` test). -/
def alchemyKeep (t : AlchemyPortfolioToken) : Bool :=
  parseHex t.tokenBalance > 0 && t.tokenAddress ≠ "" &&
    (match t.tokenMetadata with
     | some m => m.decimals.isSome
     | none => true)

/-- Display-only model of
`(parseInt(balance,16) / Math.pow(10, decimals)).toString()`.  The JS
computation goes through floating point; no claim depends on this string,
so it is rendered as the exact integer and fractional parts. -/
def formatBalanceDisplay (balance decimals : Nat) : String :=
  toString (balance / 10 ^ decimals) ++ "." ++ toString (balance % 10 ^ decimals)

/-- The filter-and-map pipeline of `fetchAlchemyPortfolioTokens` applied
to the accumulated pages of portfolio entries. -/
def processAlchemyTokens (tokens : List AlchemyPortfolioToken) : List Token :=
  (tokens.filter alchemyKeep).map fun token =>
    let decimals := match token.tokenMetadata with
      | some m => m.decimals.getD 18
      | none => 18
    { contractAddress := token.tokenAddress
      symbol := orSentinel "UNKNOWN" (token.tokenMetadata.bind (·.symbol))
      name := orSentinel "Unknown Token" (token.tokenMetadata.bind (·.name))
      balance := token.tokenBalance
      balanceFormatted := formatBalanceDisplay (parseHex token.tokenBalance) decimals }

/-- The keep-condition of `fetchZapperTokens`:
`Number(token.balance) > 0 || Number(token.balanceRaw) > 0`. -/
def zapperKeep (t : ZapperToken) : Bool :=
  jsNumberPos t.balance || jsNumberPos t.balanceRaw

/-- The map-and-filter pipeline of `fetchZapperTokens` applied to the
GraphQL edge nodes (`.map(... : Token | null).filter(Boolean)`). -/
def processZapperTokens (edges : List ZapperToken) : List Token :=
  edges.filterMap fun token =>
    if zapperKeep token then
      some { contractAddress := token.tokenAddress
             symbol := if token.symbol = "" then "UNKNOWN" else token.symbol
             name := if token.name = "" then "Unknown Token" else token.name
             balance := token.balanceRaw
             balanceFormatted := token.balance }
    else none

/-- The order the route's `sort((a, b) => a.symbol.localeCompare(b.symbol))`
uses. -/
def symbolLe (a b : Token) : Prop := lcLe a.symbol b.symbol

instance : DecidableRel symbolLe := fun a b => by
  unfold symbolLe lcLe; infer_instance

/-- The route's symbol sort (JS `Array.prototype.sort` is stable). -/
def sortTokensBySymbol (ts : List Token) : List Token :=
  List.insertionSort symbolLe ts

/-- A response of the `GET /api/tokens/[address]` handler. -/
inductive RouteResponse where
  | ok (tokens : List Token) (source : String)
  | err (error : String) (status : Nat)
  deriving DecidableEq, Repr

/-- Step 3 of the handler: no provider produced a nonempty list.  With no
key configured at all this is the 500 configuration error; otherwise the
accumulated (empty or error-free) list is returned with source "none". -/
def routeFinalize (zapperApiKey alchemyApiKey : Option String)
    (allTokens : List Token) : RouteResponse :=
  if zapperApiKey = none ∧ alchemyApiKey = none then
    .err "No API keys configured. Please set ZAPPER_API_KEY or ALCHEMY_API_KEY" 500
  else .ok (sortTokensBySymbol allTokens) "none"

/-- Step 2 of the handler: the Alchemy fallback.  `allTokens` is the list
accumulated so far (Zapper's empty success, or `[]`). -/
def routeAlchemyStep (zapperApiKey alchemyApiKey : Option String)
    (allTokens : List Token) (alchemyResult : Except String (List Token)) :
    RouteResponse :=
  match alchemyApiKey with
  | some _ =>
    match alchemyResult with
    | .ok ts =>
      if ts ≠ [] then .ok (sortTokensBySymbol ts) "alchemy-portfolio"
      else routeFinalize zapperApiKey alchemyApiKey ts
    | .error _ => routeFinalize zapperApiKey alchemyApiKey allTokens
  | none => routeFinalize zapperApiKey alchemyApiKey allTokens

/-- The `GET` handler.  `zapperResult` / `alchemyResult` are the outcomes
(`.ok tokens` or `.error msg`) the provider fetchers would produce; each
is consulted only when its API key is configured.  A missing route
parameter is the empty (falsy) address string. -/
def routeGET (address : String) (zapperApiKey alchemyApiKey : Option String)
    (zapperResult alchemyResult : Except String (List Token)) : RouteResponse :=
  if address = "" then .err "Address is required" 400
  else
    match zapperApiKey with
    | some _ =>
      match zapperResult with
      | .ok ts =>
        if ts ≠ [] then .ok (sortTokensBySymbol ts) "zapper"
        else routeAlchemyStep zapperApiKey alchemyApiKey ts alchemyResult
      | .error _ => routeAlchemyStep zapperApiKey alchemyApiKey [] alchemyResult
    | none => routeAlchemyStep zapperApiKey alchemyApiKey [] alchemyResult

/-! ### The client token-burner component (`token-burner.tsx`) -/

/-- The component's `Token` shape.  `isPriority?: boolean` is read only
through truthiness, so an absent flag is `false`. -/
structure ClientToken where
  contractAddress : String
  name : String
  symbol : String
  balance : String
  decimals : Nat
  logo : Option String := none
  isPriority : Bool := false
  deriving DecidableEq, Repr

/-- The fixed `BASE_PRIORITY_TOKENS` allow-list, lowercased as in the
source (`.map(addr => addr.toLowerCase())`). -/
def basePriorityTokens : List String :=
  ([ "0x833589fCD6eDb6E08f4c7C32D4f71b54bdA02913"
   , "0x4ed4E862860beD51a9570b96d89aF5E1B0Efefed"
   , "0x4200000000000000000000000000000000000006"
   , "0x1111111111166b7fe7bd91427724b487980afc69"
   , "0x44ff8620b8ca30902395a7bd3f2407e1a091bf73"
   , "0x58d97b57bb95320f9a05dc918aef65434969c2b2"
   , "0x1abaea1f7c830bd89acc67ec4af516284b1bc33c"
   , "0x40d16fc0246ad3160ccc09b8d0d3a2cd28ae6c2f"
   , "0x2Ae3F1Ec7F1F5012CFEab0185bfc7aa3cf0DEc22"
   , "0x50c5725949A6F0c72E6C4a641F24049A917DB0Cb"
   ]).map jsToLower

/-- A `TOKEN_METADATA_CACHE` entry. -/
structure TokenCache where
  symbol : String
  name : String
  decimals : Nat
  deriving DecidableEq, Repr

/-- The fixed `TOKEN_METADATA_CACHE`, keyed by lowercased address. -/
def tokenMetadataCache : List (String × TokenCache) :=
  [ ("0x833589fcd6edb6e08f4c7c32d4f71b54bda02913", ⟨"USDC", "USD Coin", 6⟩)
  , ("0x4ed4e862860bed51a9570b96d89af5e1b0efefed", ⟨"DEGEN", "Degen", 18⟩)
  , ("0x4200000000000000000000000000000000000006", ⟨"WETH", "Wrapped Ether", 18⟩)
  , ("0x1111111111166b7fe7bd91427724b487980afc69", ⟨"ZORA", "Zora", 18⟩)
  , ("0x44ff8620b8ca30902395a7bd3f2407e1a091bf73", ⟨"VIRTUAL", "Virtuals Protocol", 18⟩)
  , ("0x58d97b57bb95320f9a05dc918aef65434969c2b2", ⟨"MORPHO", "Morpho Token", 18⟩)
  , ("0x1abaea1f7c830bd89acc67ec4af516284b1bc33c", ⟨"EURC", "Euro Coin", 6⟩)
  , ("0x40d16fc0246ad3160ccc09b8d0d3a2cd28ae6c2f", ⟨"GHO", "GHO Token", 18⟩)
  , ("0x2ae3f1ec7f1f5012cfeab0185bfc7aa3cf0dec22", ⟨"cbETH", "Coinbase Wrapped ETH", 18⟩)
  , ("0x50c5725949a6f0c72e6c4a641f24049a917db0cb", ⟨"DAI", "Dai Stablecoin", 18⟩)
  ]

/-- The `result` of an `alchemy_getTokenMetadata` call. -/
structure AlchemyMetaResult where
  name : Option String := none
  symbol : Option String := none
  decimals : Option Nat := none
  logo : Option String := none
  deriving DecidableEq, Repr

/-- `metadata.decimals || 18`: `0`, like an absent value, is falsy and
replaced by 18. -/
def decimalsOr18 : Option Nat → Nat
  | some d => if d = 0 then 18 else d
  | none => 18

/-- `fetchTokenMetadata(contractAddress, ...)`.  `metaResult` stands for
the network metadata response (`none` when the call failed or returned no
`result`; that error is caught and surfaces as a `null` token). -/
def fetchTokenMetadata (contractAddress : String)
    (metaResult : Option AlchemyMetaResult) : Option ClientToken :=
  let lowerAddress := jsToLower contractAddress
  match (tokenMetadataCache.lookup lowerAddress : Option TokenCache) with
  | some cached =>
    some { contractAddress
           name := cached.name
           symbol := cached.symbol
           balance := "0"
           decimals := cached.decimals
           isPriority := basePriorityTokens.contains lowerAddress }
  | none =>
    match metaResult with
    | some metadata =>
      some { contractAddress
             name := orSentinel "Unknown Token" metadata.name
             symbol := orSentinel "UNKNOWN" metadata.symbol
             balance := "0"
             decimals := decimalsOr18 metadata.decimals
             logo := metadata.logo
             isPriority := basePriorityTokens.contains lowerAddress }
    | none => none

/-- One entry of an `alchemy_getTokenBalances` response. -/
structure BalanceEntry where
  contractAddress : String
  tokenBalance : String
  deriving DecidableEq, Repr

/-- The full-scan comparator of `fetchAllTokens`: priority tokens first,
then `localeCompare` on symbols. -/
def compareTokens (a b : ClientToken) : Int :=
  if a.isPriority && !b.isPriority then -1
  else if !a.isPriority && b.isPriority then 1
  else localeCompare a.symbol b.symbol

/-- The non-strict order induced by the full-scan comparator. -/
def tokenLe (a b : ClientToken) : Prop := compareTokens a b ≤ 0

instance : DecidableRel tokenLe := fun a b => by
  unfold tokenLe; infer_instance

/-- The full-scan sort (JS `Array.prototype.sort` is stable). -/
def sortTokensPriority (ts : List ClientToken) : List ClientToken :=
  List.insertionSort tokenLe ts

/-- The data pipeline of the client's `fetchAllTokens`: keep balances
`> 0`, resolve metadata (dropping tokens whose metadata cannot be
resolved), attach the raw balance, and sort priority-first.  `metaOracle`
stands for the per-address metadata responses. -/
def clientFetchAllTokens (balances : List BalanceEntry)
    (metaOracle : String → Option AlchemyMetaResult) : List ClientToken :=
  let tokensWithBalance := balances.filter fun t => parseHex t.tokenBalance > 0
  let tokensWithMetadata := tokensWithBalance.filterMap fun t =>
    (fetchTokenMetadata t.contractAddress (metaOracle t.contractAddress)).map
      fun m => { m with balance := t.tokenBalance }
  sortTokensPriority tokensWithMetadata

/-! ### Selection bookkeeping and the batched burn flow -/

/-- `handleTokenSelect` (identical in all component variants): the JS
`Set` of selected contract addresses is a `Finset String`. -/
def handleTokenSelect (selected : Finset String) (contractAddress : String)
    (checked : Bool) : Finset String :=
  if checked then insert contractAddress selected
  else selected.erase contractAddress

/-- The `BURN_ADDRESS` constant of the components. -/
def BURN_ADDRESS : String := "0x000000000000000000000000000000000000dEaD"

/-- The UI session state the batched burn flow reads: the fetched token
list and the selection set. -/
structure BurnSession where
  tokens : List Token
  selected : Finset String
  deriving DecidableEq

/-- `selectedTokensList`: the fetched tokens whose address is selected. -/
def selectedTokensList (s : BurnSession) : List Token :=
  s.tokens.filter fun t => t.contractAddress ∈ s.selected

/-- The call list `handleBurnTokens` of the batched `TokenBurner` variant
builds and submits through `useSendCalls`. -/
def buildBurnCalls (s : BurnSession) : List BatchCall :=
  (selectedTokensList s).map fun token =>
    { toAddr := token.contractAddress
      data := encodeFunctionData erc20Abi "transfer"
        [.addr BURN_ADDRESS, .uint (jsBigInt token.balance)] }

/-- The terminal status reported by `useWaitForCallsStatus`. -/
inductive CallsStatus where
  | pending
  | success
  | failure
  deriving DecidableEq, Repr

/-- The state update the component applies when a submission settles: the
success effect (`useEffect` on `callsStatus.status === 'success'`) clears
the selection set; no effect touches it on failure. -/
def applySettled (s : BurnSession) (status : CallsStatus) : BurnSession :=
  match status with
  | .success => { s with selected := ∅ }
  | _ => s

/-! ## Theorems

### The retry helper -/

/-- One unfolding step of the retry loop. -/
theorem fetchWithRetryLoop_succ (attempt : Nat → AttemptResult) (retries i rem : Nat) :
    fetchWithRetryLoop attempt retries i (rem + 1) =
      match attempt i with
      | .response true status => (.ok ⟨true, status⟩, [])
      | .response false status =>
        if i = retries - 1 then (.error ("HTTP " ++ toString status), [])
        else
          ((fetchWithRetryLoop attempt retries (i + 1) rem).1,
            2 ^ i * 1000 :: (fetchWithRetryLoop attempt retries (i + 1) rem).2)
      | .networkError msg =>
        if i = retries - 1 then (.error msg, [])
        else
          ((fetchWithRetryLoop attempt retries (i + 1) rem).1,
            2 ^ i * 1000 :: (fetchWithRetryLoop attempt retries (i + 1) rem).2) := rfl

/-- If every attempt from `i` on fails, the loop ends by rethrowing the
final attempt's error, having slept `2 ^ k * 1000` ms after each failed
attempt `k` except the last. -/
theorem fetchWithRetryLoop_all_fail (attempt : Nat → AttemptResult) (retries : Nat) :
    ∀ rem i, i + rem = retries → 0 < rem →
      (∀ j, i ≤ j → j < retries → attemptThrows (attempt j) = true) →
      fetchWithRetryLoop attempt retries i rem =
        (.error (attemptErrorMsg (attempt (retries - 1))),
          (List.range' i (rem - 1)).map fun k => 2 ^ k * 1000) := by
  intro rem
  induction rem with
  | zero => intro i _ hpos _; omega
  | succ r ih =>
    intro i hsum _ hfail
    have hthrow := hfail i le_rfl (by omega)
    cases r with
    | zero =>
      have hi : i = retries - 1 := by omega
      cases har : attempt i with
      | response ok status =>
        cases ok with
        | false =>
          rw [fetchWithRetryLoop_succ, har]
          dsimp only
          rw [if_pos hi, ← hi, har]
          simp [attemptErrorMsg]
        | true => rw [har] at hthrow; simp [attemptThrows] at hthrow
      | networkError msg =>
        rw [fetchWithRetryLoop_succ, har]
        dsimp only
        rw [if_pos hi, ← hi, har]
        simp [attemptErrorMsg]
    | succ r' =>
      have hi : i ≠ retries - 1 := by omega
      have hrec := ih (i + 1) (by omega) (by omega)
        (fun j h1 h2 => hfail j (by omega) h2)
      cases har : attempt i with
      | response ok status =>
        cases ok with
        | false =>
          rw [fetchWithRetryLoop_succ, har]
          dsimp only
          rw [if_neg hi, hrec]
          simp [List.range'_succ]
        | true => rw [har] at hthrow; simp [attemptThrows] at hthrow
      | networkError msg =>
        rw [fetchWithRetryLoop_succ, har]
        dsimp only
        rw [if_neg hi, hrec]
        simp [List.range'_succ]

/-- If the attempts from `i` on fail until attempt `k` succeeds (inside
the budget), the loop returns attempt `k`'s response. -/
theorem fetchWithRetryLoop_first_success (attempt : Nat → AttemptResult) (retries : Nat)
    (s : Nat) :
    ∀ rem i k, i + rem = retries → i ≤ k → k < retries →
      attempt k = .response true s →
      (∀ j, i ≤ j → j < k → attemptThrows (attempt j) = true) →
      (fetchWithRetryLoop attempt retries i rem).1 = .ok ⟨true, s⟩ := by
  intro rem
  induction rem with
  | zero => intro i k hsum hik hk _ _; omega
  | succ r ih =>
    intro i k hsum hik hk hsucc hfail
    rcases Nat.eq_or_lt_of_le hik with heq | hlt
    · subst heq
      rw [fetchWithRetryLoop_succ, hsucc]
    · have hthrow := hfail i le_rfl hlt
      have hi : i ≠ retries - 1 := by omega
      have hrec := ih (i + 1) k (by omega) (by omega) hk hsucc
        (fun j h1 h2 => hfail j (by omega) h2)
      cases har : attempt i with
      | response ok status =>
        cases ok with
        | false =>
          rw [fetchWithRetryLoop_succ, har]
          dsimp only
          rw [if_neg hi]
          exact hrec
        | true => rw [har] at hthrow; simp [attemptThrows] at hthrow
      | networkError msg =>
        rw [fetchWithRetryLoop_succ, har]
        dsimp only
        rw [if_neg hi]
        exact hrec

/-- C5 (counterexample): on a fully failing call with the default budget,
`fetchWithRetry` rethrows the final attempt's own error ("network down"
here), not the generic "Max retries exceeded" error the claim states. -/
theorem fetchWithRetry_final_error_not_generic :
    fetchWithRetry (fun _ => .networkError "network down") 3 =
      .error "network down" ∧
    "network down" ≠ "Max retries exceeded" :=
  ⟨rfl, by decide⟩

/-- C5 (amended): `fetchWithRetry` retries past any network failure or
non-2xx response and returns the first successful response; on exhausting
the budget it fails with the final attempt's own error, and the generic
"Max retries exceeded" error occurs only for a non-positive budget. -/
theorem fetchWithRetry_spec_amended :
    (∀ (attempt : Nat → AttemptResult) (retries k s : Nat),
        k < retries → attempt k = .response true s →
        (∀ j, j < k → attemptThrows (attempt j) = true) →
        fetchWithRetry attempt retries = .ok ⟨true, s⟩)
    ∧ (∀ (attempt : Nat → AttemptResult) (retries : Nat),
        0 < retries → (∀ j, j < retries → attemptThrows (attempt j) = true) →
        fetchWithRetry attempt retries =
          .error (attemptErrorMsg (attempt (retries - 1))))
    ∧ (∀ attempt : Nat → AttemptResult,
        fetchWithRetry attempt 0 = .error "Max retries exceeded") := by
  refine ⟨?_, ?_, ?_⟩
  · intro attempt retries k s hk hsucc hfail
    exact fetchWithRetryLoop_first_success attempt retries s retries 0 k
      (by omega) (Nat.zero_le _) hk hsucc (fun j _ h2 => hfail j h2)
  · intro attempt retries hpos hfail
    unfold fetchWithRetry
    rw [fetchWithRetryLoop_all_fail attempt retries retries 0 (by omega) hpos
      (fun j _ h2 => hfail j h2)]
  · intro attempt; rfl

/-- C5 witness: one failing attempt followed by a 200 response makes the
helper return that response. -/
theorem fetchWithRetry_spec_amended_witness :
    fetchWithRetry (fun i => if i = 0 then .networkError "boom"
      else .response true 200) 3 = .ok ⟨true, 200⟩ :=
  fetchWithRetry_spec_amended.1 _ 3 1 200 (by omega) rfl
    (by intro j hj; simp only [Nat.lt_one_iff.mp hj]; rfl)

/-- C9 (counterexample): the total backoff on a fully failing call with
the default budget of 3 is 1s + 2s = 3000 ms, not the ~7 s the claim
states (the 4 s wait never happens: the final failure is rethrown
without a wait). -/
theorem backoff_total_is_3000ms :
    fetchBackoffDelays (fun _ => .networkError "down") 3 = [1000, 2000] ∧
    (fetchBackoffDelays (fun _ => .networkError "down") 3).sum = 3000 ∧
    (3000 : Nat) ≠ 7000 :=
  ⟨rfl, rfl, by decide⟩

/-- C9 (amended): after each failed attempt `k` except the last the
helper waits `2 ^ k` seconds, so a fully failing call with the default
budget of 3 waits 1 s then 2 s, ~3 s in total. -/
theorem backoff_delays_spec :
    (∀ (attempt : Nat → AttemptResult) (retries : Nat), 0 < retries →
        (∀ j, j < retries → attemptThrows (attempt j) = true) →
        fetchBackoffDelays attempt retries =
          (List.range' 0 (retries - 1)).map fun k => 2 ^ k * 1000)
    ∧ (∀ attempt : Nat → AttemptResult,
        (∀ j, j < 3 → attemptThrows (attempt j) = true) →
        fetchBackoffDelays attempt 3 = [1000, 2000] ∧
          (fetchBackoffDelays attempt 3).sum = 3000) := by
  constructor
  · intro attempt retries hpos hfail
    unfold fetchBackoffDelays
    rw [fetchWithRetryLoop_all_fail attempt retries retries 0 (by omega) hpos
      (fun j _ h2 => hfail j h2)]
  · intro attempt hfail
    have h := fetchWithRetryLoop_all_fail attempt 3 3 0 (by omega) (by omega)
      (fun j _ h2 => hfail j h2)
    unfold fetchBackoffDelays
    rw [h]
    constructor
    · rfl
    · rfl

/-- C9 witness: the amended delay description at an all-failing attempt
sequence. -/
theorem backoff_delays_spec_witness :
    fetchBackoffDelays (fun _ => .networkError "down") 4 =
      (List.range' 0 3).map fun k => 2 ^ k * 1000 :=
  backoff_delays_spec.1 (fun _ => .networkError "down") 4 (by omega)
    (fun j _ => rfl)

/-! ### The burn call builders -/

theorem mapWithIndex_length (f : Nat → α → β) :
    ∀ (n : Nat) (l : List α), (mapWithIndex f n l).length = l.length := by
  intro n l
  induction l generalizing n with
  | nil => rfl
  | cons a as ih => simp [mapWithIndex, ih]

theorem mapWithIndex_getElem? (f : Nat → α → β) :
    ∀ (n : Nat) (l : List α) (i : Nat),
      (mapWithIndex f n l)[i]? = (l[i]?).map fun a => f (n + i) a := by
  intro n l
  induction l generalizing n with
  | nil => intro i; simp [mapWithIndex]
  | cons a as ih =>
    intro i
    cases i with
    | zero => simp [mapWithIndex]
    | succ i' =>
      have harith : n + 1 + i' = n + (i' + 1) := by omega
      simp only [mapWithIndex, List.getElem?_cons_succ, ih (n + 1) i', harith]

theorem map_mapWithIndex (g : Nat → α → β) (f : β → γ) :
    ∀ (n : Nat) (l : List α),
      (mapWithIndex g n l).map f = mapWithIndex (fun i a => f (g i a)) n l := by
  intro n l
  induction l generalizing n with
  | nil => rfl
  | cons a as ih => simp [mapWithIndex, ih]

theorem mapWithIndex_eq_map (h : α → β) :
    ∀ (n : Nat) (l : List α), mapWithIndex (fun _ a => h a) n l = l.map h := by
  intro n l
  induction l generalizing n with
  | nil => rfl
  | cons a as ih => simp [mapWithIndex, ih]

/-- C1: for a transfer list of length N and any burn address,
`createTokenBurnSteps` and `createTokenBurnBatchCalls` build exactly N
calls; the i-th call targets the i-th transfer's token contract, encodes
the ERC20 `transfer` with arguments `(burnAddress, amount)` (selector
`0xa9059cbb` followed by the two padded words), and attaches no
native-currency value; the default burn address is `0x000...dEaD`. -/
theorem burn_call_builders_spec :
    ∀ (transfers : List TokenTransfer) (burnAddress : String),
      (createTokenBurnSteps transfers burnAddress).length = transfers.length
      ∧ (createTokenBurnBatchCalls transfers burnAddress).length = transfers.length
      ∧ (∀ i : Nat, ((createTokenBurnSteps transfers burnAddress)[i]?).map
            (fun s : TransactionStep =>
              (s.contractAddress, s.functionName, s.args, s.value)) =
          (transfers[i]?).map fun t : TokenTransfer =>
            (t.tokenAddress, "transfer",
              [Arg.addr burnAddress, Arg.uint t.amount], (none : Option Nat)))
      ∧ (∀ i : Nat, (createTokenBurnBatchCalls transfers burnAddress)[i]? =
          (transfers[i]?).map fun t : TokenTransfer =>
            ({ toAddr := t.tokenAddress
               data := [0xa9, 0x05, 0x9c, 0xbb] ++
                 word32 (parseHex burnAddress) ++ word32 t.amount
               value := none } : BatchCall))
      ∧ defaultBurnAddress = "0x000000000000000000000000000000000000dEaD" := by
  intro transfers burnAddress
  refine ⟨?_, ?_, ?_, ?_, rfl⟩
  · exact mapWithIndex_length _ 0 transfers
  · exact List.length_map transfers _
  · intro i
    unfold createTokenBurnSteps
    rw [mapWithIndex_getElem?]
    cases transfers[i]? <;> rfl
  · intro i
    unfold createTokenBurnBatchCalls
    rw [List.getElem?_map]
    cases transfers[i]? <;> rfl

/-- C10: converting the burn transaction steps to batch calls gives
exactly the batch calls built directly, and no call carries a
native-currency value. -/
theorem steps_batch_calls_agree :
    ∀ (transfers : List TokenTransfer) (burnAddress : String),
      transactionStepsToBatchCalls (createTokenBurnSteps transfers burnAddress) =
        createTokenBurnBatchCalls transfers burnAddress
      ∧ ∀ call ∈ transactionStepsToBatchCalls
          (createTokenBurnSteps transfers burnAddress),
          call.value = none := by
  intro transfers burnAddress
  have heq : transactionStepsToBatchCalls (createTokenBurnSteps transfers burnAddress) =
      createTokenBurnBatchCalls transfers burnAddress := by
    unfold transactionStepsToBatchCalls createTokenBurnSteps createTokenBurnBatchCalls
    rw [map_mapWithIndex]
    exact mapWithIndex_eq_map
      (fun t : TokenTransfer =>
        ({ toAddr := t.tokenAddress
           data := encodeFunctionData erc20Abi "transfer"
             [.addr burnAddress, .uint t.amount] } : BatchCall)) 0 transfers
  refine ⟨heq, ?_⟩
  rw [heq]
  intro call hc
  unfold createTokenBurnBatchCalls at hc
  rcases List.mem_map.mp hc with ⟨t, -, rfl⟩
  rfl

/-- C10 witness: the single-transfer instance, whose unique call carries
no value. -/
theorem steps_batch_calls_agree_witness :
    BatchCall.value
      ({ toAddr := "0xToken"
         data := encodeFunctionData erc20Abi "transfer"
           [.addr defaultBurnAddress, .uint 5] } : BatchCall) = none :=
  (steps_batch_calls_agree [⟨"0xToken", 5, some "TOK"⟩] defaultBurnAddress).2 _
    (by rw [(steps_batch_calls_agree [⟨"0xToken", 5, some "TOK"⟩]
        defaultBurnAddress).1]
        exact List.mem_singleton.mpr rfl)

/-! ### Locale comparison and sort orders -/

theorem localeCompare_nonpos_iff (a b : String) :
    localeCompare a b ≤ 0 ↔
      jsToLower a < jsToLower b ∨ (jsToLower a = jsToLower b ∧ a ≤ b) := by
  unfold localeCompare
  split_ifs with h1 h2 h3 h4
  · exact iff_of_true (by norm_num) (Or.inl h1)
  · refine iff_of_false (by norm_num) ?_
    rintro (h | ⟨he, -⟩)
    · exact h1 h
    · exact absurd h2 (by rw [he]; exact lt_irrefl _)
  · have he : jsToLower a = jsToLower b := le_antisymm (not_lt.mp h2) (not_lt.mp h1)
    exact iff_of_true (by norm_num) (Or.inr ⟨he, le_of_lt h3⟩)
  · refine iff_of_false (by norm_num) ?_
    rintro (h | ⟨-, hab⟩)
    · exact h1 h
    · exact absurd hab (not_le_of_lt h4)
  · have he : jsToLower a = jsToLower b := le_antisymm (not_lt.mp h2) (not_lt.mp h1)
    exact iff_of_true le_rfl (Or.inr ⟨he, not_lt.mp h4⟩)

theorem lcLe_total (a b : String) : lcLe a b ∨ lcLe b a := by
  unfold lcLe
  rw [localeCompare_nonpos_iff, localeCompare_nonpos_iff]
  rcases lt_trichotomy (jsToLower a) (jsToLower b) with h | h | h
  · exact Or.inl (Or.inl h)
  · rcases le_total a b with hab | hba
    · exact Or.inl (Or.inr ⟨h, hab⟩)
    · exact Or.inr (Or.inr ⟨h.symm, hba⟩)
  · exact Or.inr (Or.inl h)

theorem lcLe_trans {a b c : String} (h1 : lcLe a b) (h2 : lcLe b c) : lcLe a c := by
  unfold lcLe at h1 h2 ⊢
  rw [localeCompare_nonpos_iff] at h1 h2 ⊢
  rcases h1 with h1 | ⟨e1, l1⟩
  · rcases h2 with h2 | ⟨e2, -⟩
    · exact Or.inl (h1.trans h2)
    · exact Or.inl (e2 ▸ h1)
  · rcases h2 with h2 | ⟨e2, l2⟩
    · exact Or.inl (e1 ▸ h2)
    · exact Or.inr ⟨e1.trans e2, l1.trans l2⟩

theorem lcLe_toLower_le {a b : String} (h : lcLe a b) : jsToLower a ≤ jsToLower b := by
  unfold lcLe at h
  rw [localeCompare_nonpos_iff] at h
  rcases h with h | ⟨he, -⟩
  · exact le_of_lt h
  · exact le_of_eq he

instance : IsTotal Token symbolLe := ⟨fun a b => lcLe_total a.symbol b.symbol⟩

instance : IsTrans Token symbolLe := ⟨fun _ _ _ => lcLe_trans⟩

theorem tokenLe_iff (a b : ClientToken) :
    tokenLe a b ↔
      (a.isPriority = true ∧ b.isPriority = false) ∨
        (a.isPriority = b.isPriority ∧ lcLe a.symbol b.symbol) := by
  unfold tokenLe compareTokens lcLe
  cases ha : a.isPriority <;> cases hb : b.isPriority <;> simp

instance : IsTotal ClientToken tokenLe where
  total a b := by
    rw [tokenLe_iff, tokenLe_iff]
    cases ha : a.isPriority <;> cases hb : b.isPriority
    · rcases lcLe_total a.symbol b.symbol with h | h
      · exact Or.inl (Or.inr ⟨rfl, h⟩)
      · exact Or.inr (Or.inr ⟨rfl, h⟩)
    · exact Or.inr (Or.inl ⟨rfl, rfl⟩)
    · exact Or.inl (Or.inl ⟨rfl, rfl⟩)
    · rcases lcLe_total a.symbol b.symbol with h | h
      · exact Or.inl (Or.inr ⟨rfl, h⟩)
      · exact Or.inr (Or.inr ⟨rfl, h⟩)

instance : IsTrans ClientToken tokenLe where
  trans a b c hab hbc := by
    rw [tokenLe_iff] at hab hbc ⊢
    rcases hab with ⟨ha, hb⟩ | ⟨hab', lab⟩
    · rcases hbc with ⟨hb', -⟩ | ⟨hbc', lbc⟩
      · rw [hb] at hb'; cases hb'
      · exact Or.inl ⟨ha, hbc' ▸ hb⟩
    · rcases hbc with ⟨hb', hc⟩ | ⟨hbc', lbc⟩
      · exact Or.inl ⟨hab'.trans hb', hc⟩
      · exact Or.inr ⟨hab'.trans hbc', lcLe_trans lab lbc⟩

/-! ### The client acquisition pipeline -/

theorem fetchTokenMetadata_fields (addr : String) (mr : Option AlchemyMetaResult)
    (m : ClientToken) (h : fetchTokenMetadata addr mr = some m) :
    m.contractAddress = addr ∧
      m.isPriority = basePriorityTokens.contains (jsToLower addr) := by
  unfold fetchTokenMetadata at h
  dsimp only at h
  cases hc : (tokenMetadataCache.lookup (jsToLower addr) : Option TokenCache) with
  | some cached =>
    rw [hc] at h
    injection h with h
    subst h
    exact ⟨rfl, rfl⟩
  | none =>
    rw [hc] at h
    cases mr with
    | some metadata =>
      injection h with h
      subst h
      exact ⟨rfl, rfl⟩
    | none => exact Option.noConfusion h

theorem mem_clientFetchAllTokens {balances : List BalanceEntry}
    {metaOracle : String → Option AlchemyMetaResult} {t : ClientToken}
    (ht : t ∈ clientFetchAllTokens balances metaOracle) :
    ∃ b ∈ balances, parseHex b.tokenBalance > 0 ∧
      ∃ m, fetchTokenMetadata b.contractAddress (metaOracle b.contractAddress) =
          some m ∧
        t = { m with balance := b.tokenBalance } := by
  unfold clientFetchAllTokens sortTokensPriority at ht
  have ht' := (List.perm_insertionSort tokenLe _).subset ht
  rcases List.mem_filterMap.mp ht' with ⟨b, hb, hmb⟩
  rcases List.mem_filter.mp hb with ⟨hbmem, hbpos⟩
  rcases Option.map_eq_some'.mp hmb with ⟨m, hm, ht''⟩
  exact ⟨b, hbmem, by simpa using hbpos, m, hm, ht''.symm⟩

/-- C7: the client full-scan list is sorted with every priority token
before every non-priority token and, within each partition, by
case-insensitive symbol; a produced token is flagged priority exactly
when its lowercased address is in the fixed allow-list. -/
theorem client_sort_priority_spec :
    ∀ (balances : List BalanceEntry)
      (metaOracle : String → Option AlchemyMetaResult),
      ((clientFetchAllTokens balances metaOracle).Sorted fun a b =>
          (b.isPriority = true → a.isPriority = true) ∧
            (a.isPriority = b.isPriority →
              jsToLower a.symbol ≤ jsToLower b.symbol))
      ∧ ∀ t ∈ clientFetchAllTokens balances metaOracle,
          t.isPriority = basePriorityTokens.contains (jsToLower t.contractAddress) := by
  intro balances metaOracle
  constructor
  · have hs : (clientFetchAllTokens balances metaOracle).Sorted tokenLe := by
      unfold clientFetchAllTokens sortTokensPriority
      exact List.sorted_insertionSort tokenLe _
    refine hs.imp ?_
    intro a b hab
    rw [tokenLe_iff] at hab
    rcases hab with ⟨ha, hb⟩ | ⟨he, hl⟩
    · constructor
      · intro hbp; rw [hb] at hbp; cases hbp
      · intro heq; rw [ha, hb] at heq; cases heq
    · exact ⟨fun h => he.trans h, fun _ => lcLe_toLower_le hl⟩
  · intro t ht
    rcases mem_clientFetchAllTokens ht with ⟨b, -, -, m, hm, rfl⟩
    have hf := fetchTokenMetadata_fields _ _ _ hm
    show m.isPriority = basePriorityTokens.contains (jsToLower m.contractAddress)
    rw [hf.1]
    exact hf.2

/-- C7 witness: a WETH balance entry resolves from the metadata cache
with its priority flag matching allow-list membership. -/
theorem client_sort_priority_witness :
    ClientToken.isPriority
        { contractAddress := "0x4200000000000000000000000000000000000006"
          name := "Wrapped Ether"
          symbol := "WETH"
          balance := "0x1"
          decimals := 18
          logo := none
          isPriority := true } =
      basePriorityTokens.contains
        (jsToLower "0x4200000000000000000000000000000000000006") :=
  (client_sort_priority_spec
      [⟨"0x4200000000000000000000000000000000000006", "0x1"⟩]
      (fun _ => none)).2 _ (List.mem_singleton.mpr rfl)

/-! ### The aggregation route -/

theorem routeFinalize_source {zK aK : Option String} {allT ts : List Token}
    {src : String} (h : routeFinalize zK aK allT = .ok ts src) :
    src = "none" := by
  unfold routeFinalize at h
  split_ifs at h
  all_goals first
    | exact RouteResponse.noConfusion h
    | (injection h with h1 h2; exact h2.symm)

theorem routeAlchemyStep_source {zK aK : Option String} {allT : List Token}
    {ar : Except String (List Token)} {ts : List Token} {src : String}
    (h : routeAlchemyStep zK aK allT ar = .ok ts src) :
    src = "alchemy-portfolio" ∨ src = "none" := by
  unfold routeAlchemyStep at h
  cases aK with
  | none => exact Or.inr (routeFinalize_source h)
  | some k =>
    cases ar with
    | error e => exact Or.inr (routeFinalize_source h)
    | ok l =>
      dsimp only at h
      by_cases hl : l ≠ []
      · rw [if_pos hl] at h
        injection h with h1 h2
        exact Or.inl h2.symm
      · rw [if_neg hl] at h
        exact Or.inr (routeFinalize_source h)

/-- C2: the `GET /api/tokens/[address]` handler tries Zapper first; when
Zapper yields zero results or throws (or is unconfigured) and Alchemy
returns a nonempty list, the response carries those tokens with source
"alchemy-portfolio"; with no key configured it is the 500 configuration
error; and every token response reports one of the three sources. -/
theorem routeGET_fallback_spec :
    ∀ (address : String) (zK aK : Option String)
      (zr ar : Except String (List Token)),
      address ≠ "" →
      ((∀ k ts, zK = some k → zr = .ok ts → ts ≠ [] →
          routeGET address zK aK zr ar = .ok (sortTokensBySymbol ts) "zapper")
      ∧ (∀ k ts, aK = some k → ar = .ok ts → ts ≠ [] →
          (zK = none ∨ zr = .ok [] ∨ ∃ e, zr = .error e) →
          routeGET address zK aK zr ar =
            .ok (sortTokensBySymbol ts) "alchemy-portfolio")
      ∧ (zK = none → aK = none →
          routeGET address zK aK zr ar =
            .err "No API keys configured. Please set ZAPPER_API_KEY or ALCHEMY_API_KEY"
              500)
      ∧ (∀ ts src, routeGET address zK aK zr ar = .ok ts src →
          src = "zapper" ∨ src = "alchemy-portfolio" ∨ src = "none")) := by
  intro address zK aK zr ar haddr
  refine ⟨?_, ?_, ?_, ?_⟩
  · intro k ts hk hz hne
    subst hk; subst hz
    unfold routeGET
    rw [if_neg haddr]
    dsimp only
    rw [if_pos hne]
  · intro k ts hk ha hne hz
    subst hk; subst ha
    cases zK with
    | none =>
      unfold routeGET routeAlchemyStep
      rw [if_neg haddr]
      dsimp only
      rw [if_pos hne]
    | some zk =>
      rcases hz with hzn | hze | ⟨e, hzer⟩
      · exact Option.noConfusion hzn
      · subst hze
        unfold routeGET routeAlchemyStep
        rw [if_neg haddr]
        dsimp only
        rw [if_neg (by simp), if_pos hne]
      · subst hzer
        unfold routeGET routeAlchemyStep
        rw [if_neg haddr]
        dsimp only
        rw [if_pos hne]
  · intro h1 h2
    subst h1; subst h2
    unfold routeGET routeAlchemyStep routeFinalize
    rw [if_neg haddr]
    dsimp only
    rw [if_pos ⟨rfl, rfl⟩]
  · intro ts src h
    unfold routeGET at h
    rw [if_neg haddr] at h
    cases zK with
    | none =>
      rcases routeAlchemyStep_source h with h' | h'
      · exact Or.inr (Or.inl h')
      · exact Or.inr (Or.inr h')
    | some zk =>
      cases zr with
      | error e =>
        rcases routeAlchemyStep_source h with h' | h'
        · exact Or.inr (Or.inl h')
        · exact Or.inr (Or.inr h')
      | ok l =>
        dsimp only at h
        by_cases hl : l ≠ []
        · rw [if_pos hl] at h
          injection h with h1 h2
          exact Or.inl h2.symm
        · rw [if_neg hl] at h
          rcases routeAlchemyStep_source h with h' | h'
          · exact Or.inr (Or.inl h')
          · exact Or.inr (Or.inr h')

/-- C2 witness: Zapper throws a network error, Alchemy returns one
token, and the response reports that token with source
"alchemy-portfolio". -/
theorem routeGET_fallback_witness :
    routeGET "0xabc" (some "zkey") (some "akey") (.error "network error")
        (.ok [⟨"0xaaa", "AAA", "Token A", "123", "123"⟩]) =
      .ok [⟨"0xaaa", "AAA", "Token A", "123", "123"⟩] "alchemy-portfolio" :=
  (routeGET_fallback_spec "0xabc" (some "zkey") (some "akey")
      (.error "network error") (.ok [⟨"0xaaa", "AAA", "Token A", "123", "123"⟩])
      (by decide)).2.1 "akey" [⟨"0xaaa", "AAA", "Token A", "123", "123"⟩]
    rfl rfl (List.cons_ne_nil _ _)
    (Or.inr (Or.inr ⟨"network error", rfl⟩))

/-! ### Selection and the settled burn submission -/

/-- C6: a settled submission with status success clears the selection
set; a settled failure leaves the session unchanged, so a retry rebuilds
the identical call list from the same selected tokens. -/
theorem settled_selection_spec :
    ∀ s : BurnSession,
      (applySettled s .success).selected = ∅
      ∧ applySettled s .failure = s
      ∧ buildBurnCalls (applySettled s .failure) = buildBurnCalls s :=
  fun _ => ⟨rfl, rfl, rfl⟩

/-- C8 (counterexample): selecting an already-selected token and then
deselecting it empties the selection instead of restoring it, so the
toggle pair is not a no-op on every selection set. -/
theorem toggle_not_involutive_when_selected :
    handleTokenSelect
        (handleTokenSelect ({"0xaaa"} : Finset String) "0xaaa" true)
        "0xaaa" false ≠ ({"0xaaa"} : Finset String) := by
  decide

/-- C8 (amended): when the token was not already selected, selecting and
then deselecting it restores the selection set. -/
theorem toggle_restores_when_new :
    ∀ (selected : Finset String) (addr : String), addr ∉ selected →
      handleTokenSelect (handleTokenSelect selected addr true) addr false =
        selected := by
  intro s addr h
  unfold handleTokenSelect
  simp [Finset.erase_insert h]

/-- C8 witness: the toggle pair on the empty selection. -/
theorem toggle_restores_when_new_witness :
    handleTokenSelect (handleTokenSelect (∅ : Finset String) "0xaaa" true)
        "0xaaa" false = (∅ : Finset String) :=
  toggle_restores_when_new ∅ "0xaaa" (Finset.not_mem_empty _)

/-! ### Balance positivity and raw-balance passthrough -/

/-- C3 (counterexample): the Zapper path keeps a token whose raw balance
is "0" when its formatted balance is positive, so the produced list can
contain a token whose stored (raw) balance is zero. -/
theorem zapper_zero_raw_balance_kept :
    processZapperTokens
        [{ symbol := "FOO", tokenAddress := "0xf00", balance := "1",
           balanceRaw := "0", name := "Foo" }] =
      [{ contractAddress := "0xf00", symbol := "FOO", name := "Foo",
         balance := "0", balanceFormatted := "1" }] ∧
    jsNumberPos "0" = false ∧
    ¬ (∀ (edges : List ZapperToken), ∀ t ∈ processZapperTokens edges,
        jsNumberPos t.balance = true) := by
  refine ⟨rfl, rfl, fun h => ?_⟩
  have hmem := h
    [{ symbol := "FOO", tokenAddress := "0xf00", balance := "1",
       balanceRaw := "0", name := "Foo" }]
    { contractAddress := "0xf00", symbol := "FOO", name := "Foo",
      balance := "0", balanceFormatted := "1" }
    (List.mem_singleton.mpr rfl)
  exact absurd hmem (by decide)

/-- C3 (amended): the Alchemy server path and the client direct-fetch
variant produce only tokens with strictly positive raw balance; the
Zapper path keeps exactly the tokens whose formatted or raw balance is
positive, so a zero-raw token survives there only when its formatted
balance is positive. -/
theorem positive_balance_invariant_amended :
    (∀ (l : List AlchemyPortfolioToken), ∀ t ∈ processAlchemyTokens l,
        parseHex t.balance > 0)
    ∧ (∀ (balances : List BalanceEntry)
        (metaOracle : String → Option AlchemyMetaResult),
        ∀ t ∈ clientFetchAllTokens balances metaOracle,
          parseHex t.balance > 0)
    ∧ (∀ (edges : List ZapperToken), ∀ t ∈ processZapperTokens edges,
        (jsNumberPos t.balance || jsNumberPos t.balanceFormatted) = true) := by
  refine ⟨?_, ?_, ?_⟩
  · intro l t ht
    unfold processAlchemyTokens at ht
    rcases List.mem_map.mp ht with ⟨tok, htok, rfl⟩
    rcases List.mem_filter.mp htok with ⟨-, hkeep⟩
    unfold alchemyKeep at hkeep
    rw [Bool.and_eq_true, Bool.and_eq_true] at hkeep
    exact of_decide_eq_true hkeep.1.1
  · intro balances metaOracle t ht
    rcases mem_clientFetchAllTokens ht with ⟨b, -, hpos, m, -, rfl⟩
    exact hpos
  · intro edges t ht
    unfold processZapperTokens at ht
    rcases List.mem_filterMap.mp ht with ⟨tok, -, hsome⟩
    by_cases hk : zapperKeep tok = true
    · rw [if_pos hk] at hsome
      injection hsome with h
      subst h
      unfold zapperKeep at hk
      show (jsNumberPos tok.balanceRaw || jsNumberPos tok.balance) = true
      rw [Bool.or_comm]
      exact hk
    · rw [if_neg hk] at hsome
      exact Option.noConfusion hsome

/-- C3 witness: a Zapper edge with positive raw and formatted balances
produces a token satisfying the kept-balance disjunction. -/
theorem positive_balance_invariant_amended_witness :
    (jsNumberPos (Token.balance
        { contractAddress := "0xf00", symbol := "FOO", name := "Foo",
          balance := "2", balanceFormatted := "1" }) ||
      jsNumberPos (Token.balanceFormatted
        { contractAddress := "0xf00", symbol := "FOO", name := "Foo",
          balance := "2", balanceFormatted := "1" })) = true :=
  positive_balance_invariant_amended.2.2
    [{ symbol := "FOO", tokenAddress := "0xf00", balance := "1",
       balanceRaw := "2", name := "Foo" }]
    { contractAddress := "0xf00", symbol := "FOO", name := "Foo",
      balance := "2", balanceFormatted := "1" }
    (List.mem_singleton.mpr rfl)

/-- C4 (counterexample): an Alchemy entry with nonzero balance whose
metadata carries null decimals is dropped entirely, so the produced list
has no matching entry for it. -/
theorem alchemy_nonzero_token_dropped :
    processAlchemyTokens
        [{ tokenAddress := "0xaaa", tokenBalance := "0x5",
           tokenMetadata := some { decimals := none } }] = [] ∧
    parseHex "0x5" > 0 ∧
    ¬ (∀ (l : List AlchemyPortfolioToken), ∀ tok ∈ l,
        parseHex tok.tokenBalance > 0 →
        ∃ t ∈ processAlchemyTokens l,
          t.contractAddress = tok.tokenAddress ∧
            t.balance = tok.tokenBalance) := by
  refine ⟨rfl, by decide, fun h => ?_⟩
  rcases h
      [{ tokenAddress := "0xaaa", tokenBalance := "0x5",
         tokenMetadata := some { decimals := none } }]
      _ (List.mem_singleton.mpr rfl) (by decide) with ⟨t, ht, -⟩
  rw [show processAlchemyTokens
      [{ tokenAddress := "0xaaa", tokenBalance := "0x5",
         tokenMetadata := some { decimals := none } }] = [] from rfl] at ht
  exact List.not_mem_nil t ht

/-- C4 (amended): every nonzero-balance provider token that passes the
provider's validity checks (Alchemy: truthy token address and decimals
not null; Zapper: none beyond the balance test) yields an entry with the
matching contract address whose stored balance is the provider's raw
string verbatim. -/
theorem raw_balance_verbatim_amended :
    (∀ (l : List AlchemyPortfolioToken) (tok : AlchemyPortfolioToken),
        tok ∈ l → parseHex tok.tokenBalance > 0 → tok.tokenAddress ≠ "" →
        (∀ m, tok.tokenMetadata = some m → m.decimals.isSome) →
        ∃ t ∈ processAlchemyTokens l,
          t.contractAddress = tok.tokenAddress ∧ t.balance = tok.tokenBalance)
    ∧ (∀ (edges : List ZapperToken) (e : ZapperToken), e ∈ edges →
        jsNumberPos e.balanceRaw = true →
        ∃ t ∈ processZapperTokens edges,
          t.contractAddress = e.tokenAddress ∧ t.balance = e.balanceRaw) := by
  constructor
  · intro l tok hmem hpos haddr hdec
    have hkeep : alchemyKeep tok = true := by
      unfold alchemyKeep
      rw [Bool.and_eq_true, Bool.and_eq_true]
      refine ⟨⟨decide_eq_true hpos, decide_eq_true haddr⟩, ?_⟩
      cases hm : tok.tokenMetadata with
      | none => rfl
      | some m => exact hdec m hm
    exact ⟨_, List.mem_map.mpr ⟨tok, List.mem_filter.mpr ⟨hmem, hkeep⟩, rfl⟩,
      rfl, rfl⟩
  · intro edges e hmem hraw
    have hk : zapperKeep e = true := by
      unfold zapperKeep
      rw [Bool.or_eq_true]
      exact Or.inr hraw
    exact ⟨_, List.mem_filterMap.mpr ⟨e, hmem, by rw [if_pos hk]⟩, rfl, rfl⟩

/-- C4 witness: a valid nonzero-balance Alchemy entry produces its
matching verbatim entry. -/
theorem raw_balance_verbatim_amended_witness :
    ∃ t ∈ processAlchemyTokens
        [{ tokenAddress := "0xbbb", tokenBalance := "0x7",
           tokenMetadata := some { decimals := some 6
                                   logo := none
                                   name := some "USD Coin"
                                   symbol := some "USDC" } }],
      t.contractAddress = "0xbbb" ∧ t.balance = "0x7" :=
  raw_balance_verbatim_amended.1 _ _ (List.mem_singleton.mpr rfl)
    (by decide) (by decide)
    (fun m hm => by injection hm with h; subst h; rfl)

end CoastalVista
